import Mathlib

/-!
Verification development for the Crypto-Volatility-and-Risk-Analyser
risk-metrics core: log-return transformation (`src/data_processor.py`),
volatility / Sharpe ratio / beta / historical VaR (`src/risk_metrics.py`),
rolling volatility call sites (`dashboard/app.py`, `src/visualizations.py`,
`main.py`), and the risk classifier consumed by
`src/visualizations.py::plot_risk_distribution`.

Modelling conventions.  Floating-point arithmetic is idealised as exact
arithmetic; non-finite IEEE values (NaN, +inf, -inf) that drive control
flow (`dropna`, `== 0` guards) are modelled explicitly:

* `FVal`  — a rational number or a non-finite marker, for quantities whose
  finite values the code computes by field arithmetic only (ratios of
  prices, variances, covariances, quantiles).
* `FReal` — a real number or NaN, for quantities involving square roots
  (standard deviations, annualised volatilities, Sharpe ratios).

Missing entries in a pandas Series / column are modelled as `Option ℚ`
with `none` playing the role of NaN in the input data.

One non-obvious but load-bearing convention: `np.log` applied to a
*positive finite* ratio `q` is represented symbolically by `FVal.fin q`,
i.e. the constructor carries the ratio whose natural logarithm the float
value denotes; the interpretation function `logValR` sends it to
`Real.log q`.  This keeps the whole log-returns pipeline computable (so
concrete runs can be settled by `decide`) while losing no information.
-/

namespace CryptoRisk

/-- A double-precision value in the ideal-arithmetic model: a rational
number or one of the non-finite markers NaN, +inf, -inf. -/
inductive FVal where
  | nan : FVal
  | pinf : FVal
  | ninf : FVal
  | fin : ℚ → FVal
deriving DecidableEq

/-- A real-valued float-model quantity (used where square roots appear);
only NaN among the non-finite values ever arises on these paths. -/
inductive FReal where
  | nan : FReal
  | fin : ℝ → FReal

/-- `true` exactly on the NaN marker (`pandas.dropna` drops NaN rows but
keeps infinities). -/
def FVal.isNaN : FVal → Bool
  | .nan => true
  | _ => false

/-- IEEE multiplication restricted to the values that occur on the
volatility paths: NaN propagates through every product (including
`NaN * 0`). -/
def FReal.mul : FReal → FReal → FReal
  | .nan, _ => .nan
  | _, .nan => .nan
  | .fin a, .fin b => .fin (a * b)

-- IEEE division restricted to the values that occur on the Sharpe-ratio
-- paths: NaN propagates; a zero divisor never occurs there (the code's
-- `== 0` guards return first), so that branch is mapped to NaN.
open Classical in
noncomputable def FReal.div : FReal → FReal → FReal
  | .nan, _ => .nan
  | _, .nan => .nan
  | .fin a, .fin b => if b = 0 then .nan else .fin (a / b)

/-- `pandas.Series.dropna`: keep the non-missing entries, in order. -/
def dropna (xs : List (Option ℚ)) : List ℚ := xs.filterMap id

/-- Arithmetic mean (`Series.mean` / `np.mean`); division by zero on the
empty list follows Lean's `q / 0 = 0` convention and every use below is
guarded by an emptiness check. -/
def meanQ (r : List ℚ) : ℚ := r.sum / r.length

/-- Sum of squared deviations from the mean, the shared numerator of both
variance conventions. -/
def sqDev (r : List ℚ) : ℚ := (r.map (fun x => (x - meanQ r) ^ 2)).sum

/-- Population variance (`np.std` squared, `ddof = 0`). -/
def popVar (r : List ℚ) : ℚ := sqDev r / r.length

/-- Sample variance (`Series.std` squared, `ddof = 1`). -/
def sampleVar (r : List ℚ) : ℚ := sqDev r / ((r.length : ℚ) - 1)

/-- `Series.var(ddof=1)` as a float: NaN on fewer than two points. -/
def sampleVarF (r : List ℚ) : FVal :=
  if r.length ≤ 1 then .nan else .fin (sampleVar r)

/-- Square root on the float model (variances are never negative or
infinite where this is applied; the infinite branches are unreachable
and mapped to NaN). -/
noncomputable def sqrtF : FVal → FReal
  | .fin q => .fin (Real.sqrt (q : ℝ))
  | _ => .nan

/-- `Series.std(ddof=1)` as a float: NaN on fewer than two points, else
the square root of the sample variance. -/
noncomputable def sampleStdF (r : List ℚ) : FReal := sqrtF (sampleVarF r)

/-- IEEE division of one series entry by another
(`df['Close'] / df['Close'].shift(1)` elementwise): any missing operand
gives NaN, a zero divisor gives `±inf` by the sign of the numerator
(pandas zeros are `+0`), and `0/0` gives NaN. -/
def fdivF : Option ℚ → Option ℚ → FVal
  | some a, some b =>
    if b ≠ 0 then .fin (a / b)
    else if a = 0 then .nan
    else if 0 < a then .pinf
    else .ninf
  | _, _ => .nan

/-- `np.log` on the float model: `log` of a positive finite `q` is the
finite value `ln q`, represented symbolically by the ratio `q` itself
(see the header comment); `log 0 = -inf`, `log` of a negative number is
NaN, `log (+inf) = +inf`, `log (-inf)` and `log NaN` are NaN. -/
def npLog : FVal → FVal
  | .fin q =>
    if 0 < q then .fin q
    else if q = 0 then .ninf
    else .nan
  | .pinf => .pinf
  | .ninf => .nan
  | .nan => .nan

/-- Interpretation of a log-return entry as a real number: `FVal.fin q`
stands for `ln q`; the non-finite markers carry no finite value and are
interpreted as a junk value 0 (they never appear where this is used). -/
noncomputable def logValR : FVal → ℝ
  | .fin q => Real.log (q : ℝ)
  | _ => 0

/-- `src/data_processor.py::compute_log_returns`: the `Log_Return` column
of the returned frame.  `Log_Return[t] = np.log(Close[t] / Close[t-1])`
for `t = 1..n-1` (index 0 pairs with the missing shifted value and is
NaN), then `df.dropna()` keeps exactly the rows whose entries are not
NaN (a row with a NaN `Close` has a NaN `Log_Return` as well, so
filtering on the log-return value is equivalent). -/
def compute_log_returns (prices : List (Option ℚ)) : List FVal :=
  ((prices.zip (prices.drop 1)).map (fun pc => npLog (fdivF pc.2 pc.1))).filter
    (fun v => ! v.isNaN)

/-- Modelled from the spec: `src/config.py`, which defines the
`TRADING_DAYS` constant imported by `src/risk_metrics.py`, is absent from
the repository; §6 of the specification gives
`trading_days_per_year (default 252)`. -/
def TRADING_DAYS : ℕ := 252

/-- `src/risk_metrics.py::volatility`, parameterised by the trading-days
constant (the code reads it from the missing `src/config.py`; §4.2 of the
specification gives the signature
`volatility(returns, trading_days_per_year)`).  Returns
`(np.std(r), np.std(r) * np.sqrt(trading_days))` after `r = dropna`;
`np.std` (population, `ddof = 0`) of an empty array is NaN and of a
single point is 0. -/
noncomputable def volatility (trading_days : ℕ) (returns : List (Option ℚ)) :
    FReal × FReal :=
  let r := dropna returns
  let daily : FReal :=
    if r.length = 0 then .nan else .fin (Real.sqrt ((popVar r : ℚ) : ℝ))
  (daily, daily.mul (.fin (Real.sqrt (trading_days : ℝ))))

/-- `src/risk_metrics.py::sharpe_ratio`.  `none` models a raised Python
exception (`ZeroDivisionError` from `risk_free_rate / trading_days` with
`trading_days = 0` on the non-annualised branch); every other path
returns a float.

The guard `r.std() == 0 or len(r) == 0` is translated by its exact float
semantics: the sample standard deviation is NaN for fewer than two
points and `NaN == 0` is false, while for two or more points it is
`sqrt(sampleVar)`, which equals 0 iff `sampleVar = 0`; hence the test
holds iff `(2 ≤ len ∧ sampleVar = 0) ∨ len = 0`.  Likewise the inner
`annualized_vol == 0` test (reached only with NaN std, where it is
false, or with `sampleVar ≠ 0`, where `sqrt(sampleVar) * sqrt(td) = 0`
iff `td = 0`) is translated as `2 ≤ len ∧ td = 0`. -/
noncomputable def sharpe_ratio (returns : List (Option ℚ)) (risk_free_rate : ℚ)
    (trading_days : ℕ) (annualized : Bool) : Option FReal :=
  let r := dropna returns
  if (2 ≤ r.length ∧ sampleVar r = 0) ∨ r.length = 0 then some (.fin 0)
  else
    let mean_daily : ℚ := meanQ r
    let std_daily : FReal := sampleStdF r
    if annualized then
      let excess_annual_return : ℚ := mean_daily * trading_days - risk_free_rate
      let annualized_vol : FReal := std_daily.mul (.fin (Real.sqrt (trading_days : ℝ)))
      if 2 ≤ r.length ∧ trading_days = 0 then some (.fin 0)
      else some ((FReal.fin ((excess_annual_return : ℚ) : ℝ)).div annualized_vol)
    else
      if trading_days = 0 then none
      else some ((FReal.fin (((mean_daily - risk_free_rate / trading_days : ℚ)) : ℝ)).div std_daily)

/-- The `numpy` default ("linear") quantile of a list: with
`h = level * (n - 1)`, interpolate between the order statistics at
positions `⌊h⌋` and `min (⌊h⌋ + 1) (n - 1)`. -/
def quantileLinear (r : List ℚ) (level : ℚ) : ℚ :=
  let s := r.insertionSort (· ≤ ·)
  let n := r.length
  let h : ℚ := level * ((n : ℚ) - 1)
  let i : ℕ := (⌊h⌋).toNat
  let g : ℚ := h - (i : ℚ)
  s.getD i 0 + g * (s.getD (min (i + 1) (n - 1)) 0 - s.getD i 0)

/-- `src/risk_metrics.py::historical_var`: `0.0` on an empty series
(checked before the quantile call), otherwise `-np.quantile(r, level)`;
`np.quantile` raises (modelled as `none`) when `level` lies outside
`[0, 1]`. -/
def historical_var (returns : List (Option ℚ)) (level : ℚ) : Option ℚ :=
  let r := dropna returns
  if r.length = 0 then some 0
  else if level < 0 ∨ 1 < level then none
  else some (-(quantileLinear r level))

/-- Index-aligned rows where both series are present
(`pandas` pairwise-complete covariance input). -/
def pairdrop (x y : List (Option ℚ)) : List (ℚ × ℚ) :=
  (x.zip y).filterMap (fun p =>
    match p with
    | (some a, some b) => some (a, b)
    | _ => none)

/-- Sample covariance (`ddof = 1`) of a list of pairs. -/
def covQ (ps : List (ℚ × ℚ)) : ℚ :=
  ((ps.map (fun p =>
      (p.1 - meanQ (ps.map Prod.fst)) * (p.2 - meanQ (ps.map Prod.snd)))).sum) /
    ((ps.length : ℚ) - 1)

/-- `Series.cov`: pairwise-complete sample covariance, NaN on fewer than
two complete pairs. -/
def covF (x y : List (Option ℚ)) : FVal :=
  if (pairdrop x y).length ≤ 1 then .nan else .fin (covQ (pairdrop x y))

/-- Float division on `FVal` (NaN propagates; division by a finite zero
follows IEEE sign conventions; the infinite-operand branches never occur
on the beta path and are mapped to NaN). -/
def fdivV : FVal → FVal → FVal
  | .fin a, .fin b => fdivF (some a) (some b)
  | _, _ => .nan

/-- `src/risk_metrics.py::beta`:
`asset.cov(benchmark) / benchmark.var()` (both `ddof = 1`; no guard, so
a zero or NaN benchmark variance propagates as inf/NaN rather than
raising). -/
def beta (asset_returns benchmark_returns : List (Option ℚ)) : FVal :=
  fdivV (covF asset_returns benchmark_returns)
    (sampleVarF (dropna benchmark_returns))

/-- The metrics dict built by
`src/data_processor.py::generate_metrics`. `beta = none` models the
`'beta'` key being absent (it is written only when a benchmark is
passed). -/
structure Metrics where
  daily_volatility : FReal
  annual_volatility : FReal
  sharpe_ratio : FReal
  var_95 : ℚ
  beta : Option FVal

/-- `src/data_processor.py::generate_metrics` on a frame whose
`Log_Return` column is `log_return` (`none` for a frame without that
column, which raises `ValueError`).  `sharpe_ratio` is called with the
default `risk_free_rate = 0.01` and `trading_days = 252`,
`annualized = True`, on which path it never raises (`.getD .nan` is
never taken); `historical_var` is called with `level = 0.05 ∈ [0, 1]`,
on which it never raises either, so the `try/except` fallbacks to `None`
are dead on the modelled paths (`.getD 0` is never taken). -/
noncomputable def generate_metrics (log_return : Option (List (Option ℚ)))
    (benchmark_returns : Option (List (Option ℚ))) : Except String Metrics :=
  match log_return with
  | none => .error "Log_Return column missing. Run compute_log_returns first."
  | some lr =>
    let v := volatility TRADING_DAYS lr
    .ok
      { daily_volatility := v.1
        annual_volatility := v.2
        sharpe_ratio := (sharpe_ratio lr (1 / 100) 252 true).getD .nan
        var_95 := (historical_var lr (1 / 20)).getD 0
        beta := benchmark_returns.map (fun b => beta lr b) }

/-- The trailing window of length `w` ending at index `i` (inclusive). -/
def rolling_window (xs : List (Option ℚ)) (w i : ℕ) : List (Option ℚ) :=
  (xs.take (i + 1)).drop (i + 1 - w)

/-- `Series.rolling(w).std()` squared, before the square root:
`pandas` uses `min_periods = w` by default for an integer window (and
`main.py` passes `min_periods` equal to the window explicitly), so a
position is NaN while fewer than `w` non-missing values lie in its
trailing window — in particular until the window is full-sized, and
whenever the full-sized window contains a missing entry; otherwise it is
the sample variance of the window's values. -/
def rolling_var (w : ℕ) (xs : List (Option ℚ)) : List FVal :=
  (List.range xs.length).map (fun i =>
    let win := dropna (rolling_window xs w i)
    if win.length < w then .nan else sampleVarF win)

/-- `Series.rolling(w).std()`: the square root of `rolling_var`
pointwise. -/
noncomputable def rolling_std (w : ℕ) (xs : List (Option ℚ)) : List FReal :=
  (rolling_var w xs).map sqrtF

/-- `dashboard/app.py` line 118:
`vol_df['Log_Return'].rolling(vol_window).std()` (the CSV-export data of
the dashboard's volatility view). -/
noncomputable def vol_df_rolling_vol (vol_window : ℕ)
    (log_return : List (Option ℚ)) : List FReal :=
  rolling_std vol_window log_return

/-- `src/visualizations.py::plot_volatility_plotly` line 49:
`df['Log_Return'].rolling(window).std()` (the y-series of the
dashboard's volatility chart). -/
noncomputable def plot_volatility_vol (window : ℕ)
    (log_return : List (Option ℚ)) : List FReal :=
  rolling_std window log_return

/-- `main.py::add_indicators` lines 133-134: the standalone indicator
pipeline's rolling volatility,
`df['Daily_Return'].rolling(window=w, min_periods=w).std() * np.sqrt(252)`
with `w ∈ {20, 50}`. -/
noncomputable def indicator_volatility (window : ℕ)
    (daily_return : List (Option ℚ)) : List FReal :=
  (rolling_std window daily_return).map
    (fun v => v.mul (.fin (Real.sqrt (252 : ℝ))))

/-- The risk tiers of §3 of the specification
(`'Low Risk' / 'Medium Risk' / 'High Risk'` in
`plot_risk_distribution`). -/
inductive RiskTier where
  | low : RiskTier
  | medium : RiskTier
  | high : RiskTier
deriving DecidableEq

/-- The rank of a tier (higher volatility, higher rank). -/
def tierRank : RiskTier → ℕ
  | .low => 0
  | .medium => 1
  | .high => 2

/-- Modelled from the spec: `src/risk_classifier.py`, whose
`classify_risk` is imported by
`src/visualizations.py::plot_risk_distribution`, is absent from the
repository.  §4.3 of the specification: a small ordered table of
upper-bound thresholds evaluated in order over the three tiers of §3,
defaulting to the lowest tier when the input is below all thresholds or
is non-finite/missing.  `t1 ≤ t2` are the two (policy-chosen) tier
boundaries. -/
def classify_risk (t1 t2 : ℚ) (annual_volatility : FVal) : RiskTier :=
  match annual_volatility with
  | .fin x => if x < t1 then .low else if x < t2 then .medium else .high
  | _ => .low

/-- `true` on the finite values of the float model. -/
def FVal.isFinite : FVal → Bool
  | .fin _ => true
  | _ => false

/-- The pair predicate characterising which log-return rows survive
`compute_log_returns`' `dropna` (first component: previous price, second:
current price): both prices present, and either the previous price is
non-zero with a non-negative ratio, or the previous price is zero with a
positive current price (ratio `+inf`, whose log is `+inf`, kept). -/
def keptPair (prev cur : Option ℚ) : Bool :=
  match prev, cur with
  | some b, some a => (decide (b ≠ 0) && decide (0 ≤ a / b)) || (decide (b = 0) && decide (0 < a))
  | _, _ => false

/-- Concrete 20-entry return series (alternating `0` and `1/10`) used to
separate the dashboard and indicator-pipeline rolling volatilities. -/
def xs0 : List (Option ℚ) :=
  [some 0, some (1 / 10), some 0, some (1 / 10), some 0, some (1 / 10),
   some 0, some (1 / 10), some 0, some (1 / 10), some 0, some (1 / 10),
   some 0, some (1 / 10), some 0, some (1 / 10), some 0, some (1 / 10),
   some 0, some (1 / 10)]

/-! ### Helper lemmas -/

lemma sqDev_nonneg (r : List ℚ) : 0 ≤ sqDev r := by
  apply List.sum_nonneg
  intro x hx
  obtain ⟨y, _, rfl⟩ := List.mem_map.mp hx
  positivity

lemma sampleVar_nonneg (r : List ℚ) : 0 ≤ sampleVar r := by
  cases r with
  | nil => simp [sampleVar, sqDev, meanQ]
  | cons a t =>
    apply div_nonneg (sqDev_nonneg _)
    have : (1 : ℚ) ≤ ((a :: t).length : ℚ) := by
      exact_mod_cast Nat.succ_le_of_lt (Nat.pos_of_ne_zero (by simp))
    linarith

lemma popVar_nonneg (r : List ℚ) : 0 ≤ popVar r := by
  exact div_nonneg (sqDev_nonneg _) (by positivity)

lemma popVar_lt_sampleVar (r : List ℚ) (h2 : 2 ≤ r.length)
    (hv : sampleVar r ≠ 0) : popVar r < sampleVar r := by
  have hn : (2 : ℚ) ≤ (r.length : ℚ) := by exact_mod_cast h2
  have hS : 0 < sqDev r := by
    rcases lt_or_eq_of_le (sqDev_nonneg r) with h | h
    · exact h
    · exfalso; apply hv; simp [sampleVar, ← h]
  have h1 : (0 : ℚ) < (r.length : ℚ) - 1 := by linarith
  have h0 : ((r.length : ℚ) - 1) < (r.length : ℚ) := by linarith
  exact div_lt_div_of_pos_left hS h1 h0

lemma sampleStdF_eq_zero_iff (r : List ℚ) :
    sampleStdF r = FReal.fin 0 ↔ 2 ≤ r.length ∧ sampleVar r = 0 := by
  unfold sampleStdF sampleVarF
  by_cases hl : r.length ≤ 1
  · simp [hl, sqrtF]
    omega
  · simp only [hl, if_false, sqrtF, FReal.fin.injEq]
    constructor
    · intro h
      refine ⟨by omega, ?_⟩
      have hle : ((sampleVar r : ℚ) : ℝ) ≤ 0 := Real.sqrt_eq_zero'.mp h
      have : sampleVar r ≤ 0 := by exact_mod_cast hle
      exact le_antisymm this (sampleVar_nonneg r)
    · intro ⟨_, h⟩
      rw [h]
      simp [Real.sqrt_zero]

/-! ### C2 — Sharpe ratio degenerate guard -/

/-- C2: for every return series whose non-missing entries are empty or
have sample standard deviation exactly zero, `sharpe_ratio` returns
exactly `0.0` — a value, not NaN and not a raised exception — for every
choice of `risk_free_rate`, `trading_days` and the `annualized` flag. -/
theorem C2_sharpe_degenerate_zero (returns : List (Option ℚ))
    (risk_free_rate : ℚ) (trading_days : ℕ) (annualized : Bool)
    (h : dropna returns = [] ∨ sampleStdF (dropna returns) = FReal.fin 0) :
    sharpe_ratio returns risk_free_rate trading_days annualized
      = some (FReal.fin 0) := by
  have hguard : (2 ≤ (dropna returns).length ∧ sampleVar (dropna returns) = 0)
      ∨ (dropna returns).length = 0 := by
    rcases h with h | h
    · right; simp [h]
    · left; exact (sampleStdF_eq_zero_iff _).mp h
  unfold sharpe_ratio
  rw [if_pos hguard]

/-- Witness for C2 at the spec's own example, the constant series
`[0.01] * 10` with `risk_free_rate = 0.01`, `trading_days = 252`. -/
theorem C2_witness :
    (dropna (List.replicate 10 (some ((1 : ℚ) / 100))) = []
        ∨ sampleStdF (dropna (List.replicate 10 (some ((1 : ℚ) / 100)))) = FReal.fin 0)
      ∧ sharpe_ratio (List.replicate 10 (some ((1 : ℚ) / 100))) (1 / 100) 252 true
          = some (FReal.fin 0) := by
  have hstd : sampleStdF (dropna (List.replicate 10 (some ((1 : ℚ) / 100)))) = FReal.fin 0 := by
    rw [(sampleStdF_eq_zero_iff _).symm.mp]
    constructor
    · norm_num [dropna, List.replicate, List.filterMap_cons]
    · norm_num [sampleVar, sqDev, meanQ, dropna, List.replicate, List.filterMap_cons]
  exact ⟨Or.inr hstd, C2_sharpe_degenerate_zero _ _ _ _ (Or.inr hstd)⟩

/-! ### C3 — Volatility: population std and sqrt scaling -/

/-- C3: `volatility` returns `daily` equal to the population standard
deviation of the non-missing returns (its square is `popVar` and it is
non-negative) and `annual = daily * sqrt(trading_days)`; doubling the
trading-days constant from 252 to 1008 multiplies the annual volatility
by exactly 2. -/
theorem C3_volatility_scaling (returns : List (Option ℚ)) :
    (volatility 1008 returns).2 = (FReal.fin 2).mul ((volatility 252 returns).2)
      ∧ (dropna returns = []
          ∨ ∃ d : ℝ, (volatility 252 returns).1 = FReal.fin d ∧ 0 ≤ d
              ∧ d ^ 2 = ((popVar (dropna returns) : ℚ) : ℝ)) := by
  constructor
  · unfold volatility
    by_cases h : (dropna returns).length = 0
    · simp [h, FReal.mul]
    · simp only [h, if_false, FReal.mul]
      congr 1
      have h1008 : Real.sqrt ((1008 : ℕ) : ℝ) = 2 * Real.sqrt ((252 : ℕ) : ℝ) := by
        have : ((1008 : ℕ) : ℝ) = (2 : ℝ) ^ 2 * ((252 : ℕ) : ℝ) := by norm_num
        rw [this, Real.sqrt_mul (by positivity), Real.sqrt_sq (by norm_num)]
      rw [h1008]
      ring
  · by_cases h : dropna returns = []
    · exact Or.inl h
    · right
      have hlen : (dropna returns).length ≠ 0 := by simpa using h
      refine ⟨Real.sqrt ((popVar (dropna returns) : ℚ) : ℝ), ?_, Real.sqrt_nonneg _, ?_⟩
      · unfold volatility
        simp [hlen]
      · exact Real.sq_sqrt (by exact_mod_cast popVar_nonneg _)

/-! ### C4 — Historical VaR -/

/-- C4 counterexample: on `returns = [-0.05, -0.02, 0.0, 0.01, 0.03]`
with `level = 0.2`, `historical_var` returns exactly `0.026` (the
negative of the linearly interpolated 20th percentile `-0.026`), which
is not approximately `0.038` — it differs from the claimed value by
`0.012 > 0.01`. -/
theorem C4_counterexample :
    historical_var
        [some (-(1 / 20)), some (-(1 / 50)), some 0, some (1 / 100), some (3 / 100)]
        (1 / 5)
        = some (13 / 500)
      ∧ ¬ |(13 / 500 : ℚ) - 38 / 1000| ≤ 1 / 100 := by
  constructor
  · norm_num [historical_var, quantileLinear, dropna, List.filterMap_cons,
      List.insertionSort, List.orderedInsert]
  · rw [abs_le]
    norm_num

/-- C4 (amended): `historical_var` returns `0.0` on an empty series (for
every level), returns the negation of the linearly interpolated
level-quantile on a non-empty series with level in `[0, 1]`, and on
`[-0.05, -0.02, 0.0, 0.01, 0.03]` with `level = 0.2` the result is
exactly `0.026` (not ≈ 0.038). -/
theorem C4_var_amended (returns : List (Option ℚ)) (level : ℚ) :
    (dropna returns = [] → historical_var returns level = some 0)
      ∧ (dropna returns ≠ [] → 0 ≤ level → level ≤ 1 →
          historical_var returns level
            = some (-(quantileLinear (dropna returns) level)))
      ∧ historical_var
          [some (-(1 / 20)), some (-(1 / 50)), some 0, some (1 / 100), some (3 / 100)]
          (1 / 5)
          = some (13 / 500) := by
  refine ⟨?_, ?_, ?_⟩
  · intro h
    unfold historical_var
    simp [h]
  · intro hne h0 h1
    unfold historical_var
    have hlen : ¬ (dropna returns).length = 0 := by simpa using hne
    rw [if_neg hlen, if_neg (by push_neg; exact ⟨h0, h1⟩)]
  · norm_num [historical_var, quantileLinear, dropna, List.filterMap_cons,
      List.insertionSort, List.orderedInsert]

/-- Witness for C4 at the spec's own example `historical_var([], 0.05)`. -/
theorem C4_witness :
    historical_var [] (1 / 20) = some 0
      ∧ historical_var
          [some (-(1 / 20)), some (-(1 / 50)), some 0, some (1 / 100), some (3 / 100)]
          (1 / 5)
          = some (13 / 500) :=
  ⟨(C4_var_amended [] (1 / 20)).1 (by simp [dropna]),
    (C4_var_amended [] (1 / 20)).2.2⟩

/-! ### C10 — Sharpe ratio of a singleton series is NaN -/

/-- C10: on a return series with exactly one non-missing entry,
`sharpe_ratio` returns NaN rather than `0.0`: the sample standard
deviation of a single point is NaN, which fails the `std == 0` guard and
propagates through the arithmetic.  (On the non-annualised branch with
`trading_days = 0` the code instead raises `ZeroDivisionError`, hence
the side condition.) -/
theorem C10_sharpe_single_nan (returns : List (Option ℚ))
    (risk_free_rate : ℚ) (trading_days : ℕ) (annualized : Bool)
    (h1 : (dropna returns).length = 1)
    (h : annualized = true ∨ 1 ≤ trading_days) :
    sharpe_ratio returns risk_free_rate trading_days annualized
      = some FReal.nan := by
  have hstd : sampleStdF (dropna returns) = FReal.nan := by
    unfold sampleStdF sampleVarF
    simp [h1, sqrtF]
  simp only [sharpe_ratio]
  rw [if_neg (by simp [h1])]
  rcases h with hann | htd
  · subst hann
    simp only [if_true]
    rw [if_neg (by simp [h1])]
    simp [hstd, FReal.mul, FReal.div]
  · by_cases hann : annualized
    · subst hann
      simp only [if_true]
      rw [if_neg (by simp [h1])]
      simp [hstd, FReal.mul, FReal.div]
    · simp only [Bool.not_eq_true] at hann
      subst hann
      simp only [Bool.false_eq_true, if_false]
      rw [if_neg (by omega)]
      simp [hstd, FReal.div]

/-- Witness for C10: the one-element series `[0.5]` with the default
parameters. -/
theorem C10_witness :
    (dropna [some ((1 : ℚ) / 2)]).length = 1
      ∧ sharpe_ratio [some ((1 : ℚ) / 2)] (1 / 100) 252 true = some FReal.nan :=
  ⟨by simp [dropna],
    C10_sharpe_single_nan _ _ _ _ (by simp [dropna]) (Or.inl rfl)⟩

/-! ### C5 — Annualised Sharpe formula and the sample/population asymmetry -/

/-- C5: on a non-degenerate return series (at least two non-missing
entries, non-zero sample variance) and a positive trading-days count,
the annualised Sharpe ratio is
`((mean * trading_days) - risk_free_rate) / (sample_std * sqrt(trading_days))`,
and the sample standard deviation used here differs from the population
standard deviation used by `volatility`. -/
theorem C5_sharpe_annualized_formula (returns : List (Option ℚ))
    (risk_free_rate : ℚ) (trading_days : ℕ)
    (h2 : 2 ≤ (dropna returns).length)
    (hv : sampleVar (dropna returns) ≠ 0)
    (htd : 1 ≤ trading_days) :
    sharpe_ratio returns risk_free_rate trading_days true
        = some (FReal.fin
            (((meanQ (dropna returns) * trading_days - risk_free_rate : ℚ) : ℝ)
              / (Real.sqrt ((sampleVar (dropna returns) : ℚ) : ℝ)
                  * Real.sqrt ((trading_days : ℕ) : ℝ))))
      ∧ Real.sqrt ((sampleVar (dropna returns) : ℚ) : ℝ)
          ≠ Real.sqrt ((popVar (dropna returns) : ℚ) : ℝ) := by
  have hvpos : 0 < sampleVar (dropna returns) :=
    lt_of_le_of_ne (sampleVar_nonneg _) (Ne.symm hv)
  have hsqrt_pos : 0 < Real.sqrt ((sampleVar (dropna returns) : ℚ) : ℝ) :=
    Real.sqrt_pos.mpr (by exact_mod_cast hvpos)
  have htd_pos : 0 < Real.sqrt ((trading_days : ℕ) : ℝ) :=
    Real.sqrt_pos.mpr (by exact_mod_cast htd)
  have hstd : sampleStdF (dropna returns)
      = FReal.fin (Real.sqrt ((sampleVar (dropna returns) : ℚ) : ℝ)) := by
    unfold sampleStdF sampleVarF
    rw [if_neg (by omega)]
    rfl
  constructor
  · simp only [sharpe_ratio]
    rw [if_neg (by simp only [not_or]; exact ⟨fun h => hv h.2, by omega⟩)]
    rw [if_pos trivial, if_neg (fun h => absurd h.2 (by omega))]
    rw [hstd]
    simp [FReal.mul, FReal.div, (mul_pos hsqrt_pos htd_pos).ne']
  · exact (Real.sqrt_lt_sqrt (by exact_mod_cast popVar_nonneg _)
      (by exact_mod_cast popVar_lt_sampleVar _ h2 hv)).ne'

/-- Witness for C5 on the two-point series `[0, 0.02]` with the default
parameters (`sampleVar = 1/5000`). -/
theorem C5_witness :
    2 ≤ (dropna [some (0 : ℚ), some (1 / 50)]).length
      ∧ sampleVar (dropna [some (0 : ℚ), some (1 / 50)]) ≠ 0
      ∧ sharpe_ratio [some (0 : ℚ), some (1 / 50)] (1 / 100) 252 true
          = some (FReal.fin
              (((meanQ (dropna [some (0 : ℚ), some (1 / 50)]) * (252 : ℕ)
                    - 1 / 100 : ℚ) : ℝ)
                / (Real.sqrt ((sampleVar (dropna [some (0 : ℚ), some (1 / 50)]) : ℚ) : ℝ)
                    * Real.sqrt (((252 : ℕ) : ℕ) : ℝ))))
      ∧ Real.sqrt ((sampleVar (dropna [some (0 : ℚ), some (1 / 50)]) : ℚ) : ℝ)
          ≠ Real.sqrt ((popVar (dropna [some (0 : ℚ), some (1 / 50)]) : ℚ) : ℝ) := by
  have h2 : 2 ≤ (dropna [some (0 : ℚ), some (1 / 50)]).length := by
    simp [dropna]
  have hv : sampleVar (dropna [some (0 : ℚ), some (1 / 50)]) ≠ 0 := by
    norm_num [sampleVar, sqDev, meanQ, dropna, List.filterMap_cons]
  obtain ⟨ha, hb⟩ :=
    C5_sharpe_annualized_formula [some (0 : ℚ), some (1 / 50)] (1 / 100) 252 h2 hv
      (by norm_num)
  exact ⟨h2, hv, ha, hb⟩

/-! ### C1 / C9 — the log-return transform -/

lemma kept_iff (prev cur : Option ℚ) :
    (!(npLog (fdivF cur prev)).isNaN) = keptPair prev cur := by
  cases prev with
  | none => cases cur <;> simp [fdivF, npLog, FVal.isNaN, keptPair]
  | some b =>
    cases cur with
    | none => simp [fdivF, npLog, FVal.isNaN, keptPair]
    | some a =>
      simp only [fdivF, keptPair]
      by_cases hb : b = 0
      · subst hb
        rcases lt_trichotomy a 0 with h | h | h
        · simp [h, h.not_lt, ne_of_lt h, npLog, FVal.isNaN]
        · subst h; simp [npLog, FVal.isNaN]
        · simp [h, ne_of_gt h, npLog, FVal.isNaN]
      · rcases lt_trichotomy (a / b) 0 with h | h | h
        · have hane : a ≠ 0 := by
            intro h0
            rw [h0, zero_div] at h
            exact absurd h (lt_irrefl 0)
          simp [hb, npLog, FVal.isNaN, h.not_lt, h.ne, hane, not_le_of_lt h]
        · simp [hb, h, npLog, FVal.isNaN, le_of_eq h.symm]
        · simp [hb, h, npLog, FVal.isNaN, le_of_lt h]

lemma clr_pos (ps : List ℚ) (hpos : ∀ x ∈ ps, 0 < x) :
    compute_log_returns (ps.map some)
      = (ps.zip (ps.drop 1)).map (fun pc => FVal.fin (pc.2 / pc.1)) := by
  induction ps with
  | nil => simp [compute_log_returns]
  | cons a t IH =>
    cases t with
    | nil => simp [compute_log_returns]
    | cons b t2 =>
      have ha : 0 < a := hpos a (by simp)
      have hb : 0 < b := hpos b (by simp)
      have hIH := IH (fun x hx => hpos x (List.mem_cons_of_mem a hx))
      have hhead : npLog (fdivF (some b) (some a)) = FVal.fin (b / a) := by
        simp [fdivF, npLog, ha.ne', div_pos hb ha]
      simp only [compute_log_returns, List.map_cons, List.drop_succ_cons,
        List.drop_zero, List.zip_cons_cons, List.filter_cons] at hIH ⊢
      rw [hhead]
      simp only [FVal.isNaN, Bool.not_false, if_true]
      exact congrArg _ hIH

lemma getLastD_pos : ∀ (t : List ℚ) (b : ℚ), 0 < b → (∀ x ∈ t, 0 < x) →
    0 < t.getLastD b
  | [], _, hb, _ => hb
  | c :: t, b, _, h => by
    rw [List.getLastD_cons]
    exact getLastD_pos t c (h c (by simp)) (fun x hx => h x (List.mem_cons_of_mem c hx))

lemma log_ratio_telescope : ∀ (ps : List ℚ) (a : ℚ), a ≠ 0 → (∀ x ∈ ps, x ≠ 0) →
    (((a :: ps).zip ps).map (fun pc => Real.log ((pc.2 : ℚ) : ℝ)
        - Real.log ((pc.1 : ℚ) : ℝ))).sum
      = Real.log ((ps.getLastD a : ℚ) : ℝ) - Real.log ((a : ℚ) : ℝ)
  | [], a, _, _ => by simp
  | c :: t, a, ha, h => by
    have hc : (c : ℚ) ≠ 0 := h c (by simp)
    have hrec := log_ratio_telescope t c hc (fun x hx => h x (List.mem_cons_of_mem c hx))
    simp only [List.zip_cons_cons, List.map_cons, List.sum_cons, List.getLastD_cons]
    rw [hrec]
    ring

/-- C1 counterexample: on the price series `[1, 0]` the current price at
index 1 is `0` (non-positive, ratio `0`), so the claim requires that
entry to be dropped and the output to be empty; the code computes
`log 0 = -inf`, which is not NaN and survives `dropna`, so the output is
`[-inf]`, of length 1. -/
theorem C1_counterexample :
    compute_log_returns [some 1, some 0] = [FVal.ninf]
      ∧ compute_log_returns [some 1, some 0] ≠ [] := by
  constructor
  · norm_num [compute_log_returns, fdivF, npLog, FVal.isNaN]
  · norm_num [compute_log_returns, fdivF, npLog, FVal.isNaN]

/-- C1 (amended): `compute_log_returns` keeps exactly the entries whose
log value is not NaN: both prices present and either the previous price
is non-zero with a non-negative ratio (a zero ratio yields `-inf`, which
is kept), or the previous price is zero with a positive current price
(`+inf`, kept); entries with a missing price or a negative ratio are
dropped.  On an all-positive series the output is the full series of
(symbolically represented) log ratios, and for length ≥ 2 its length is
the input length minus 1 exactly. -/
theorem C1_log_returns_amended (prices : List (Option ℚ)) (ps : List ℚ)
    (hpos : ∀ x ∈ ps, 0 < x) :
    (compute_log_returns prices).length
        = ((prices.zip (prices.drop 1)).filter (fun pc => keptPair pc.1 pc.2)).length
      ∧ compute_log_returns (ps.map some)
          = (ps.zip (ps.drop 1)).map (fun pc => FVal.fin (pc.2 / pc.1))
      ∧ (2 ≤ ps.length → (compute_log_returns (ps.map some)).length = ps.length - 1) := by
  refine ⟨?_, clr_pos ps hpos, ?_⟩
  · unfold compute_log_returns
    rw [List.filter_map, List.length_map]
    congr 1
    apply List.filter_congr
    intro pc _
    simpa using kept_iff pc.1 pc.2
  · intro h2
    rw [clr_pos ps hpos, List.length_map, List.length_zip, List.length_drop]
    omega

/-- Witness for C1 on the positive price series `[100, 105]`. -/
theorem C1_witness :
    (∀ x ∈ [(100 : ℚ), 105], 0 < x)
      ∧ (compute_log_returns [some (100 : ℚ), some 105]).length
          = (([some (100 : ℚ), some 105].zip ([some (100 : ℚ), some 105].drop 1)).filter
              (fun pc => keptPair pc.1 pc.2)).length
      ∧ compute_log_returns ([(100 : ℚ), 105].map some)
          = ([(100 : ℚ), 105].zip ([(100 : ℚ), 105].drop 1)).map
              (fun pc => FVal.fin (pc.2 / pc.1))
      ∧ (2 ≤ [(100 : ℚ), 105].length
          → (compute_log_returns ([(100 : ℚ), 105].map some)).length
              = [(100 : ℚ), 105].length - 1) := by
  have hpos : ∀ x ∈ [(100 : ℚ), 105], 0 < x := by
    intro x hx
    simp only [List.mem_cons, List.not_mem_nil, or_false] at hx
    rcases hx with rfl | rfl <;> norm_num
  exact ⟨hpos, C1_log_returns_amended [some (100 : ℚ), some 105] [(100 : ℚ), 105] hpos⟩

/-- C9: for an all-positive price series with no missing values, the sum
of the log returns telescopes:
`exp(sum(log_returns)) = price[last] / price[first]` — exactly, in the
ideal-arithmetic model. -/
theorem C9_telescoping (a : ℚ) (ps : List ℚ) (ha : 0 < a)
    (hpos : ∀ x ∈ ps, 0 < x) :
    Real.exp (((compute_log_returns ((a :: ps).map some)).map logValR).sum)
      = ((ps.getLastD a : ℚ) : ℝ) / ((a : ℚ) : ℝ) := by
  have hpos' : ∀ x ∈ a :: ps, 0 < x := by
    intro x hx
    rcases List.mem_cons.mp hx with rfl | hx
    · exact ha
    · exact hpos x hx
  have hzip : (a :: ps).drop 1 = ps := rfl
  rw [clr_pos (a :: ps) hpos', hzip, List.map_map]
  have hmap : ((a :: ps).zip ps).map (logValR ∘ fun pc : ℚ × ℚ => FVal.fin (pc.2 / pc.1))
      = ((a :: ps).zip ps).map
          (fun pc : ℚ × ℚ => Real.log ((pc.2 : ℚ) : ℝ) - Real.log ((pc.1 : ℚ) : ℝ)) := by
    apply List.map_congr_left
    intro pc hpc
    obtain ⟨x, y⟩ := pc
    obtain ⟨hx, hy⟩ := List.of_mem_zip hpc
    have hxpos : 0 < x := hpos' x hx
    have hypos : 0 < y := hpos' y (List.mem_cons_of_mem a hy)
    simp only [Function.comp_apply, logValR, Rat.cast_div]
    exact Real.log_div (by exact_mod_cast hypos.ne') (by exact_mod_cast hxpos.ne')
  rw [hmap, log_ratio_telescope ps a ha.ne' (fun x hx => (hpos x hx).ne')]
  rw [Real.exp_sub, Real.exp_log (by exact_mod_cast getLastD_pos ps a ha hpos),
    Real.exp_log (by exact_mod_cast ha)]

/-- Witness for C9 on the price series `[1, 2, 4]`:
`exp(ln 2 + ln 2) = 4`. -/
theorem C9_witness :
    (0 : ℚ) < 1 ∧ (∀ x ∈ [(2 : ℚ), 4], 0 < x)
      ∧ Real.exp (((compute_log_returns (((1 : ℚ) :: [(2 : ℚ), 4]).map some)).map logValR).sum)
          = ((([(2 : ℚ), 4].getLastD 1 : ℚ) : ℝ) / (((1 : ℚ) : ℚ) : ℝ)) := by
  have hpos : ∀ x ∈ [(2 : ℚ), 4], 0 < x := by
    intro x hx
    simp only [List.mem_cons, List.not_mem_nil, or_false] at hx
    rcases hx with rfl | rfl <;> norm_num
  exact ⟨by norm_num, hpos, C9_telescoping 1 [(2 : ℚ), 4] (by norm_num) hpos⟩

/-! ### C6 — the rolling-volatility call sites -/

/-- C6 counterexample: on the same 20-entry return series and the same
window 20, the dashboard call site computes the rolling sample standard
deviation while the indicator pipeline multiplies it by `sqrt(252)`
(annualisation), so at index 19 (the first full window) the two values
differ. -/
theorem C6_counterexample :
    (vol_df_rolling_vol 20 xs0)[19]? ≠ (indicator_volatility 20 xs0)[19]? := by
  have hv : (rolling_var 20 xs0)[19]? = some (FVal.fin (1 / 380)) := by
    norm_num [rolling_var, rolling_window, xs0, sampleVarF, sampleVar, sqDev, meanQ,
      dropna, List.filterMap_cons, List.range_succ]
  have h1 : (vol_df_rolling_vol 20 xs0)[19]?
      = some (FReal.fin (Real.sqrt ((1 / 380 : ℚ) : ℝ))) := by
    rw [vol_df_rolling_vol, rolling_std, List.getElem?_map, hv]
    rfl
  have h2 : (indicator_volatility 20 xs0)[19]?
      = some (FReal.fin (Real.sqrt ((1 / 380 : ℚ) : ℝ)
          * Real.sqrt (252 : ℝ))) := by
    rw [indicator_volatility, rolling_std, List.getElem?_map, List.getElem?_map, hv]
    rfl
  rw [h1, h2]
  intro h
  have hr : Real.sqrt ((1 / 380 : ℚ) : ℝ)
      = Real.sqrt ((1 / 380 : ℚ) : ℝ) * Real.sqrt (252 : ℝ) := by
    have := Option.some.inj h
    exact congrArg (fun v => match v with | FReal.fin x => x | FReal.nan => 0) this
  have hqpos : 0 < Real.sqrt ((1 / 380 : ℚ) : ℝ) := by
    apply Real.sqrt_pos.mpr
    exact_mod_cast (by norm_num : (0 : ℚ) < 1 / 380)
  have h252 : Real.sqrt (252 : ℝ) = 1 :=
    (mul_left_cancel₀ hqpos.ne' (by rw [← hr, mul_one])).symm
  have : (252 : ℝ) = 1 := by
    rw [← Real.sq_sqrt (by norm_num : (0 : ℝ) ≤ 252), h252]
    norm_num
  norm_num at this

/-- C6 (amended): the dashboard volatility-chart call site and the
dashboard CSV-export call site compute identical sequences for identical
series and window; the standalone indicator pipeline computes the same
rolling standard deviation but multiplied pointwise by the constant
`sqrt(252)`, so the two pipelines agree only up to that annualisation
factor and are not numerically identical. -/
theorem C6_rolling_amended (window : ℕ) (series : List (Option ℚ)) :
    vol_df_rolling_vol window series = plot_volatility_vol window series
      ∧ indicator_volatility window series
          = (vol_df_rolling_vol window series).map
              (fun v => v.mul (FReal.fin (Real.sqrt (252 : ℝ)))) :=
  ⟨rfl, rfl⟩

/-! ### C7 — completeness of the metrics result -/

/-- C7 counterexample: with a valid `Log_Return` column and no benchmark,
`generate_metrics` succeeds, yet the returned record has no beta value —
the `'beta'` key is absent — contradicting the claim that a successful
result has no absent/None field. -/
theorem C7_counterexample :
    ∃ m : Metrics,
      generate_metrics (some [some (1 / 100), some (2 / 100)]) none = Except.ok m
        ∧ m.beta = none :=
  ⟨_, rfl, rfl⟩

/-- C7 (amended): `generate_metrics` always populates
`daily_volatility`, `annual_volatility`, `sharpe_ratio` and `var_95`;
`beta` is present exactly when a benchmark is provided (and absent
otherwise, rather than the failure blocking the other fields, which are
unchanged); the only failure is the field-identifying `ValueError` when
the `Log_Return` column is missing. -/
theorem C7_metrics_amended (log_return : List (Option ℚ))
    (benchmark : Option (List (Option ℚ))) :
    (∃ m : Metrics,
        generate_metrics (some log_return) benchmark = Except.ok m
          ∧ m.beta = benchmark.map (fun b => beta log_return b)
          ∧ generate_metrics (some log_return) none
              = Except.ok { m with beta := none })
      ∧ generate_metrics none benchmark
          = Except.error "Log_Return column missing. Run compute_log_returns first." := by
  refine ⟨⟨_, rfl, rfl, ?_⟩, rfl⟩
  rfl

/-! ### C8 — risk classifier totality and monotonicity -/

/-- C8: the (spec-modelled) `classify_risk` is a total function whose
non-finite inputs map to the lowest tier, and it is monotone: a larger
finite annual volatility never maps to a strictly lower risk tier. -/
theorem C8_classify_total_monotone (t1 t2 : ℚ) :
    (∀ v : FVal, v.isFinite = false → classify_risk t1 t2 v = RiskTier.low)
      ∧ ∀ x y : ℚ, x < y →
          tierRank (classify_risk t1 t2 (FVal.fin x))
            ≤ tierRank (classify_risk t1 t2 (FVal.fin y)) := by
  constructor
  · intro v hv
    cases v <;> simp_all [classify_risk, FVal.isFinite]
  · intro x y hxy
    show tierRank (if x < t1 then .low else if x < t2 then .medium else .high)
        ≤ tierRank (if y < t1 then .low else if y < t2 then .medium else .high)
    split_ifs <;> simp [tierRank] <;> linarith

/-- Witness for C8 with thresholds `0.5`, `1.0`, the NaN input, and the
finite pair `0.25 < 0.75`. -/
theorem C8_witness :
    classify_risk (1 / 2) 1 FVal.nan = RiskTier.low
      ∧ ((1 : ℚ) / 4 < 3 / 4)
      ∧ tierRank (classify_risk (1 / 2) 1 (FVal.fin (1 / 4)))
          ≤ tierRank (classify_risk (1 / 2) 1 (FVal.fin (3 / 4))) := by
  have h := C8_classify_total_monotone (1 / 2) 1
  exact ⟨h.1 FVal.nan rfl, by norm_num, h.2 (1 / 4) (3 / 4) (by norm_num)⟩

end CryptoRisk
